import Mathlib

/-!
Shallow embedding of the solytics wallet-analytics core
(`src/App.jsx` and `src/solscan.js`).

Modelling conventions:
* JavaScript values that may be `undefined`/`null` are `Option _`; the two
  are conflated (the program only distinguishes them via `??` on `slot`,
  where the modelled result is the same).
* JS truthiness on numbers (`0` falsy) and strings (`""` falsy) is made
  explicit via `natTruthy` / `strTruthy`; the JS `a || b` operator is
  `jsOr`.
* The remote HTTP API is an oracle (`Api`): each endpoint maps its request
  parameters to either a parsed response body or a thrown error message
  (`Except String _` models both non-ok HTTP statuses and transport
  failures, which the source turns into thrown `Error`s).
* React state writes (`setRows`, `setStatus`, `setProgress`) and the
  request trace are threaded through an explicit record `Sim`.
  `progressLog` records every `setProgress` call of one invocation and
  `calls` every outbound request, both starting empty per invocation.
* Unbounded `for(;;)` / generator loops take a fuel argument; running out
  of fuel simply ends the loop, which is sound for the safety properties
  proved below.
* External library collaborators (luxon date formatting, JSON.stringify,
  Papa/recharts) are oracle parameters (`dateOf`, `toISO`, `stringify`);
  the date inputs are modelled by the derived `startEpoch`/`endEpoch`
  optional epoch values (App.jsx lines 34-35).
-/

/-- JS truthiness of a number (`0` is falsy). -/
def natTruthy (n : Nat) : Bool := n != 0

/-- JS truthiness of a string (`""` is falsy). -/
def strTruthy (s : String) : Bool := s != ""

/-- JS truthiness of a possibly-absent value (`undefined`/`null` falsy). -/
def truthyO (tr : α → Bool) : Option α → Bool
  | some v => tr v
  | none => false

/-- Truthiness of an optional number. -/
def truthyN (o : Option Nat) : Bool := truthyO natTruthy o

/-- Truthiness of an optional string. -/
def truthyS (o : Option String) : Bool := truthyO strTruthy o

/-- The JS `a || b` operator on possibly-absent values: `a` if truthy,
otherwise `b` as-is (even if `b` is falsy or absent). -/
def jsOr (tr : α → Bool) : Option α → Option α → Option α
  | some v, b => if tr v then some v else b
  | none, b => b

/-- A source object as returned by either API endpoint: an open JS record,
modelled with every field either normalizer or the paginator consults.
Absent fields are `none`. -/
structure Src where
  blockTime : Option Nat := none
  block_time : Option Nat := none
  blockTimeUnix : Option Nat := none
  ts : Option Nat := none
  txHash : Option String := none
  txhash : Option String := none
  tx_hash : Option String := none
  slot : Option Nat := none
  fee : Option Nat := none
  feeLamports : Option Nat := none
  err : Option String := none
  error : Option String := none
deriving DecidableEq, Repr

/-- A normalized row as built by `fetchAll` (App.jsx lines 58-65 and
77-83). `fee` is always a number (the code appends `|| 0`). -/
structure Row where
  blockTime : Option Nat
  signature : Option String
  slot : Option Nat
  fee : Nat
  err : Option String
deriving DecidableEq, Repr

/-- Balance-change row normalization (App.jsx lines 58-65):
`blockTime: x.block_time || x.blockTime || x.ts`,
`signature: x.tx_hash || x.txHash`, `slot: x.slot || null`,
`fee: x.fee || 0`, `err: x.err || null`. -/
def normBal (x : Src) : Row :=
  { blockTime := jsOr natTruthy x.block_time (jsOr natTruthy x.blockTime x.ts)
  , signature := jsOr strTruthy x.tx_hash x.txHash
  , slot := jsOr natTruthy x.slot none
  , fee := (jsOr natTruthy x.fee (some 0)).getD 0
  , err := jsOr strTruthy x.err none }

/-- Transaction row normalization (App.jsx lines 77-83):
`blockTime: t.blockTime || t.blockTimeUnix || t.block_time`,
`signature: t.txHash || t.txhash`, `slot: t.slot ?? null`,
`fee: t.fee || t.feeLamports || 0`, `err: t.err || t.error || null`. -/
def normTx (t : Src) : Row :=
  { blockTime := jsOr natTruthy t.blockTime (jsOr natTruthy t.blockTimeUnix t.block_time)
  , signature := jsOr strTruthy t.txHash t.txhash
  , slot := t.slot
  , fee := (jsOr natTruthy t.fee (jsOr natTruthy t.feeLamports (some 0))).getD 0
  , err := jsOr strTruthy t.err (jsOr strTruthy t.error none) }

/-- Start-bound predicate of the client-side date filter (App.jsx line 86):
`r => !r.blockTime || r.blockTime >= startEpoch`. -/
def keepStart (s : Nat) (r : Row) : Bool :=
  !truthyN r.blockTime || decide (s ≤ r.blockTime.getD 0)

/-- End-bound predicate of the client-side date filter (App.jsx line 87):
`r => !r.blockTime || r.blockTime <= endEpoch`. -/
def keepEnd (e : Nat) (r : Row) : Bool :=
  !truthyN r.blockTime || decide (r.blockTime.getD 0 ≤ e)

/-- Client-side date filter (App.jsx lines 86-87). Note the `if
(startEpoch)` / `if (endEpoch)` guards test JS truthiness of the bound, so
an absent bound — or a bound equal to `0` — skips that pass. -/
def dateFilter (se ee : Option Nat) (rows : List Row) : List Row :=
  let r1 := if truthyN se then rows.filter (keepStart (se.getD 0)) else rows
  if truthyN ee then r1.filter (keepEnd (ee.getD 0)) else r1

/-- Combined single-pass predicate equivalent to `dateFilter` (both bound
checks conjoined, each disabled when its bound is falsy). -/
def dfPred (se ee : Option Nat) (r : Row) : Bool :=
  (!truthyN se || keepStart (se.getD 0) r) && (!truthyN ee || keepEnd (ee.getD 0) r)

/-- Cursor derived from the last element of a transaction batch
(solscan.js line 40): `list[list.length - 1]?.txHash`. -/
def lastHash (list : List Src) : Option String :=
  match list.getLast? with
  | some t => t.txHash
  | none => none

/-- The transaction paginator of solscan.js (`iterTransactions`), as the
finite sequence of batches it yields. `api` maps the `beforeHash` cursor
(absent on the first request) to the parsed `data` list or a thrown error;
a thrown error ends the sequence with no further yield. `fuel` bounds the
unbounded `for(;;)` loop. The dead local `loaded` is omitted. -/
def iterTransactions (api : Option String → Except String (List Src)) :
    Nat → Option String → List (List Src)
  | 0, _ => []
  | fuel+1, cursor =>
    match api cursor with
    | .error _ => []
    | .ok list =>
      if list.isEmpty then []
      else
        if truthyS (lastHash list) then list :: iterTransactions api fuel (lastHash list)
        else [list]

/-- Opaque account-detail payload (`detail?.data`); consumers read
`lamports` and a type label defensively. -/
structure AcctData where
  lamports : Option Nat := none
  typ : Option String := none
deriving DecidableEq, Repr

/-- One outbound HTTP request, as recorded in the trace. The balance-change
request also carries `from_time`/`to_time`/`page_size` query parameters
derived from the configuration; only the varying page number is recorded. -/
inductive Req where
  | accountDetail : Req
  | balancePage : Nat → Req
  | txPage : Option String → Req
deriving DecidableEq, Repr

/-- The remote API as a deterministic oracle, one field per endpoint. -/
structure Api where
  detail : Except String (Option AcctData)
  balPage : Nat → Except String (List Src)
  txPage : Option String → Except String (List Src)

/-- Caller-supplied configuration. `startEpoch`/`endEpoch` are the derived
optional epoch bounds of App.jsx lines 34-35 (absent when the date input is
empty); the luxon conversion itself is an external collaborator. -/
structure Config where
  apiKey : String
  address : String
  startEpoch : Option Nat
  endEpoch : Option Nat
  maxRows : Nat
deriving DecidableEq, Repr

/-- Observable state of one `fetchAll` invocation: the React state fields
written by the controller plus instrumentation traces (`progressLog` lists
every `setProgress` value of the run, `calls` every outbound request). -/
structure Sim where
  rows : List Row := []
  status : String := "Idle"
  acct : Option AcctData := none
  progressLog : List Nat := []
  calls : List Req := []
deriving DecidableEq, Repr

/-- Fresh traces for a new invocation (React state persists, the
per-invocation instrumentation starts empty). -/
def initSim (prev : Sim) : Sim := { prev with progressLog := [], calls := [] }

/-- JS `Math.round (a / b)` for nonnegative `a` and positive `b`, computed
exactly on naturals: `⌊a/b + 1/2⌋`. -/
def roundDiv (a b : Nat) : Nat := (2 * a + b) / (2 * b)

/-- Balance-phase progress milestone (App.jsx line 66):
`Math.min(80, 20 + page*4)`. -/
def balProg (page : Nat) : Nat := min 80 (20 + page * 4)

/-- Transaction-phase progress milestone (App.jsx line 91):
`Math.min(95, 60 + Math.round(out2.length / Math.max(500, maxRows) * 35))`. -/
def txProg (cfg : Config) (n : Nat) : Nat :=
  min 95 (60 + roundDiv (n * 35) (max 500 cfg.maxRows))

/-- Balance-change accumulation loop (App.jsx lines 55-69). One iteration:
request the page, append the normalized list to `out`, `setRows`,
`setProgress`, then break when the page was empty or the cap is reached,
else advance to the next page (the 120ms sleep is not modelled). -/
def balLoop (api : Api) (cfg : Config) :
    Nat → Nat → List Row → Sim → Except (String × Sim) (List Row × Sim)
  | 0, _, out, sim => .ok (out, sim)
  | fuel+1, page, out, sim =>
    let sim1 := { sim with calls := sim.calls ++ [Req.balancePage page] }
    match api.balPage page with
    | .error e => .error (e, sim1)
    | .ok list =>
      let out1 := out ++ list.map normBal
      let sim2 := { sim1 with rows := out1, progressLog := sim1.progressLog ++ [balProg page] }
      if list.isEmpty || decide (cfg.maxRows ≤ out1.length) then .ok (out1, sim2)
      else balLoop api cfg fuel (page+1) out1 sim2

/-- Transaction-crawl loop (App.jsx lines 74-94 with the `iterTransactions`
generator of solscan.js inlined at its single use site, preserving the
interleaving: the generator issues the request and breaks on an empty page;
the consumer appends normalized rows, re-filters the whole accumulated set,
`setRows`/`setStatus`/`setProgress`, breaks at the cap; the generator then
derives the next cursor from the last element and breaks when it is falsy. -/
def txLoop (api : Api) (cfg : Config) :
    Nat → Option String → List Row → Sim → Except (String × Sim) (List Row × Sim)
  | 0, _, out2, sim => .ok (out2, sim)
  | fuel+1, cursor, out2, sim =>
    let sim1 := { sim with calls := sim.calls ++ [Req.txPage cursor] }
    match api.txPage cursor with
    | .error e => .error (e, sim1)
    | .ok list =>
      if list.isEmpty then .ok (out2, sim1)
      else
        let out4 := dateFilter cfg.startEpoch cfg.endEpoch (out2 ++ list.map normTx)
        let sim2 := { sim1 with
          rows := out4,
          status := "Fetched " ++ toString out4.length ++ "…",
          progressLog := sim1.progressLog ++ [txProg cfg out4.length] }
        if decide (cfg.maxRows ≤ out4.length) then .ok (out4, sim2)
        else
          if truthyS (lastHash list) then txLoop api cfg fuel (lastHash list) out4 sim2
          else .ok (out4, sim2)

/-- The body of `fetchAll` (App.jsx lines 39-96): validation, account
detail, optional balance-change phase (entered when a start or end epoch is
truthy), then the transaction crawl; `.error` carries the thrown message
together with the state at the throw point. -/
def fetchAllE (api : Api) (cfg : Config) (fuel : Nat) (sim0 : Sim) :
    Except (String × Sim) Sim :=
  if cfg.apiKey = "" then .error ("Enter your Solscan Pro API key.", sim0)
  else if cfg.address = "" then .error ("Enter a Solana address.", sim0)
  else
    let sim1 := { sim0 with
      status := "Fetching account…",
      progressLog := sim0.progressLog ++ [5], rows := [] }
    let sim2 := { sim1 with calls := sim1.calls ++ [Req.accountDetail] }
    match api.detail with
    | .error e => .error (e, sim2)
    | .ok d =>
      let sim3 := { sim2 with acct := d }
      let balPhase : Except (String × Sim) Sim :=
        if truthyN cfg.startEpoch || truthyN cfg.endEpoch then
          let sim4 := { sim3 with status := "Fetching balance changes…" }
          match balLoop api cfg fuel 1 [] sim4 with
          | .error es => .error es
          | .ok (_, sim5) => .ok { sim5 with status := "Fetching transactions (pagination) …" }
        else .ok sim3
      match balPhase with
      | .error es => .error es
      | .ok sim6 =>
        match txLoop api cfg fuel none [] sim6 with
        | .error es => .error es
        | .ok (_, sim7) =>
          .ok { sim7 with status := "Done", progressLog := sim7.progressLog ++ [100] }

/-- `fetchAll` with its catch/finally (App.jsx lines 97-101): the catch
only writes the error message into `status`; rows/progress keep their
values at the throw point. -/
def fetchAll (api : Api) (cfg : Config) (fuel : Nat) (prev : Sim) : Sim :=
  match fetchAllE api cfg fuel (initSim prev) with
  | .ok sim => sim
  | .error (e, sim) => { sim with status := e }

/-- State projection of a loop result, whichever way the loop ended. -/
def simOfLoop : Except (String × Sim) (List Row × Sim) → Sim
  | .ok (_, s) => s
  | .error (_, s) => s

/-- Rows-only mirror of `txLoop`: the same recursion restricted to the
accumulator, making it syntactically evident that the transaction-phase
result depends only on the `txPage` endpoint and the configuration. -/
def txOutRows (api : Api) (cfg : Config) :
    Nat → Option String → List Row → Except String (List Row)
  | 0, _, out2 => .ok out2
  | fuel+1, cursor, out2 =>
    match api.txPage cursor with
    | .error e => .error e
    | .ok list =>
      if list.isEmpty then .ok out2
      else
        let out4 := dateFilter cfg.startEpoch cfg.endEpoch (out2 ++ list.map normTx)
        if decide (cfg.maxRows ≤ out4.length) then .ok out4
        else
          if truthyS (lastHash list) then txOutRows api cfg fuel (lastHash list) out4
          else .ok out4

/-- Rows-only mirror of `balLoop`. -/
def balOutRowsLoop (api : Api) (cfg : Config) :
    Nat → Nat → List Row → Except String (List Row)
  | 0, _, out => .ok out
  | fuel+1, page, out =>
    match api.balPage page with
    | .error e => .error e
    | .ok list =>
      let out1 := out ++ list.map normBal
      if list.isEmpty || decide (cfg.maxRows ≤ out1.length) then .ok out1
      else balOutRowsLoop api cfg fuel (page+1) out1

/-- Rows contributed by the balance-change phase: the loop from page 1 when
a date bound is truthy, nothing otherwise. -/
def balOutRows (api : Api) (cfg : Config) (fuel : Nat) : Except String (List Row) :=
  if truthyN cfg.startEpoch || truthyN cfg.endEpoch then
    balOutRowsLoop api cfg fuel 1 []
  else .ok []

/-- The `.ok` payload of an endpoint response, `[]` on a thrown error. -/
def okD (e : Except String (List Src)) : List Src :=
  match e with
  | .ok l => l
  | .error _ => []

/-- Concatenation of the normalized balance-change pages `page`,
`page+1`, …, `page+n-1` in order, each page whole.  Used to state that the
balance loop appends entire batches and never truncates one. -/
def balPagesRows (api : Api) : Nat → Nat → List Row
  | _, 0 => []
  | page, n+1 => (okD (api.balPage page)).map normBal ++ balPagesRows api (page+1) n

/-- Insertion step for the date-ascending sort of `groupByDate`
(comparator `(a,b) => a.date < b.date ? -1 : 1`). -/
def insertByDate (p : String × Nat) : List (String × Nat) → List (String × Nat)
  | [] => [p]
  | q :: t => if p.1 < q.1 then p :: q :: t else q :: insertByDate p t

/-- Sort of the per-date entries by ascending date string. -/
def sortByDate : List (String × Nat) → List (String × Nat)
  | [] => []
  | p :: t => insertByDate p (sortByDate t)

/-- Increment the count stored under date `d`, first occurrence order
preserved (the `Map` of App.jsx lines 12-18 as an association list). -/
def bump : List (String × Nat) → String → List (String × Nat)
  | [], d => [(d, 1)]
  | (k, c) :: rest, d => if k = d then (k, c+1) :: rest else (k, c) :: bump rest d

/-- Accumulation pass of `groupByDate` (App.jsx lines 13-18): per row,
`ts = r.blockTime || r.block_time || r.blockTimeUnix || 0` (the latter two
fields never exist on a normalized row, hence `none`), skip when `ts` is
falsy, else count under `dateOf ts` (luxon `toISODate`, an oracle here). -/
def groupPairs (dateOf : Nat → String) : List Row → List (String × Nat) → List (String × Nat)
  | [], m => m
  | r :: rs, m =>
    let ts := (jsOr natTruthy r.blockTime
                (jsOr natTruthy none (jsOr natTruthy none (some 0)))).getD 0
    if ts = 0 then groupPairs dateOf rs m
    else groupPairs dateOf rs (bump m (dateOf ts))

/-- `groupByDate` (App.jsx lines 11-20): accumulate per-date counts, then
sort ascending by date. -/
def groupByDate (dateOf : Nat → String) (rows : List Row) : List (String × Nat) :=
  sortByDate (groupPairs dateOf rows [])

/-- Lamports per SOL (App.jsx line 8). -/
def SOL : Nat := 1000000000

/-- One CSV record of `exportCSV` (App.jsx lines 105-111). -/
structure CsvRow where
  time_iso : String
  signature : Option String
  slot : Option Nat
  fee_sol : Rat
  error : String
deriving DecidableEq

/-- `exportCSV` per-row mapping (App.jsx lines 105-111):
`time_iso: r.blockTime ? toISO(r.blockTime) : ""`,
`fee_sol: r.fee ? r.fee / SOL : 0`,
`error: r.err ? stringify(r.err) : ""`; luxon `toISO` and
`JSON.stringify` are oracle parameters. -/
def csvRowOf (toISO : Nat → String) (stringify : String → String) (r : Row) : CsvRow :=
  { time_iso := if truthyN r.blockTime then toISO (r.blockTime.getD 0) else ""
  , signature := r.signature
  , slot := r.slot
  , fee_sol := if natTruthy r.fee then (r.fee : Rat) / (SOL : Rat) else 0
  , error := if truthyS r.err then stringify (r.err.getD "") else "" }

/-- Table-cell time rendering (App.jsx line 209):
`r.blockTime ? toUTC().toISO(...) : ""` with the luxon formatter as an
oracle parameter. -/
def renderTime (toISO : Nat → String) (r : Row) : String :=
  if truthyN r.blockTime then toISO (r.blockTime.getD 0) else ""

/-- Ordered-alias lookup table in the spec's own terms: first value in the
alias chain, JS `||`-style (first truthy, last value as-is when all are
falsy). -/
def aliasChain (tr : α → Bool) : List (Option α) → Option α
  | [] => none
  | [a] => a
  | a :: rest => jsOr tr a (aliasChain tr rest)

/-- The claimed "first present value among the ordered alias list":
first `some`, regardless of truthiness. -/
def firstPresent : List (Option α) → Option α
  | [] => none
  | some v :: _ => some v
  | none :: rest => firstPresent rest

/-! ## Basic lemmas about the JS helpers and the date filter -/

theorem jsOr_of_falsy (tr : α → Bool) (a b : Option α) (h : truthyO tr a = false) :
    jsOr tr a b = b := by
  cases a with
  | none => rfl
  | some v => simp only [truthyO] at h; simp [jsOr, h]

theorem dateFilter_eq_filter (se ee : Option Nat) (rows : List Row) :
    dateFilter se ee rows = rows.filter (dfPred se ee) := by
  unfold dateFilter dfPred
  cases hs : truthyN se <;> cases he : truthyN ee <;>
    simp [hs, he, List.filter_filter, Bool.and_comm]

theorem dateFilter_idem (se ee : Option Nat) (rows : List Row) :
    dateFilter se ee (dateFilter se ee rows) = dateFilter se ee rows := by
  rw [dateFilter_eq_filter, dateFilter_eq_filter, List.filter_filter]
  simp

theorem dateFilter_append_of_stable (se ee : Option Nat) (out2 batch : List Row)
    (h : dateFilter se ee out2 = out2) :
    dateFilter se ee (out2 ++ batch) = out2 ++ dateFilter se ee batch := by
  rw [dateFilter_eq_filter] at h ⊢
  rw [List.filter_append, h, dateFilter_eq_filter]

theorem dateFilter_length_le (se ee : Option Nat) (rows : List Row) :
    (dateFilter se ee rows).length ≤ rows.length := by
  rw [dateFilter_eq_filter]; exact List.length_filter_le _ _

theorem dateFilter_nil (se ee : Option Nat) : dateFilter se ee [] = [] := by
  rw [dateFilter_eq_filter]; rfl

/-! ## C9: idempotence of the date filter -/

/-- Claim C9: for every set of rows and every pair of optional date bounds,
applying the client-side date filter twice yields the same list as applying
it once. -/
theorem c9_filter_idempotent (se ee : Option Nat) (rows : List Row) :
    dateFilter se ee (dateFilter se ee rows) = dateFilter se ee rows :=
  dateFilter_idem se ee rows

/-! ## C5: what the date filter removes -/

/-- Source object with a present-but-zero timestamp alias, as returned by
the transaction endpoint. -/
def cx5src : Src := { block_time := some 0, txHash := some "s" }

/-- Claim C5 counterexample: this row's timestamp is present (`some 0`) and
lies strictly below the start bound 100, so by the claim the filter should
remove it; the code keeps it because `!r.blockTime` treats `0` as absent. -/
theorem c5_counterexample :
    (normTx cx5src).blockTime = some 0 ∧ (0 : Nat) < 100 ∧
    dateFilter (some 100) none [normTx cx5src] = [normTx cx5src] := by decide

/-- Claim C5 as amended: a row is removed by the date filter iff its
timestamp is truthy (present and nonzero) and lies strictly outside the
truthy bounds (an absent or zero bound is unbounded on that side); rows
with an absent or zero timestamp are never removed. -/
theorem c5_date_filter_membership (se ee : Option Nat) (rows : List Row) (r : Row) :
    r ∈ dateFilter se ee rows ↔
      r ∈ rows ∧
        ¬(truthyN r.blockTime = true ∧
          ((truthyN se = true ∧ r.blockTime.getD 0 < se.getD 0) ∨
           (truthyN ee = true ∧ ee.getD 0 < r.blockTime.getD 0))) := by
  rw [dateFilter_eq_filter, List.mem_filter]
  refine and_congr_right fun _ => ?_
  cases ht : truthyN r.blockTime <;> cases hs : truthyN se <;> cases he : truthyN ee <;>
    simp [dfPred, keepStart, keepEnd, ht, hs, he]

/-! ## C4: normalizer alias handling -/

/-- Transaction-shaped source whose first timestamp alias is present but
zero and whose second is 5. -/
def cx4a : Src := { blockTime := some 0, blockTimeUnix := some 5 }

/-- Balance-shaped source whose only timestamp information is the `ts`
alias, which the claim's alias list does not contain. -/
def cx4b : Src := { ts := some 7 }

/-- Claim C4 counterexample: the normalizer takes the first *truthy* alias,
not the first *present* one (`cx4a`: claimed `some 0`, code gives
`some 5`), and the balance-change normalizer also consults the `ts` alias,
absent from the claimed list (`cx4b`: claimed all-absent fallback, code
gives `some 7`). -/
theorem c4_counterexample :
    (normTx cx4a).blockTime = some 5 ∧
    firstPresent [cx4a.blockTime, cx4a.blockTimeUnix, cx4a.block_time] = some 0 ∧
    (normBal cx4b).blockTime = some 7 ∧
    firstPresent [cx4b.blockTime, cx4b.blockTimeUnix, cx4b.block_time] = none := by
  decide

/-- Claim C4 as amended: each normalizer assigns all five canonical fields,
taking for each logical field the first *truthy* value of its own ordered
alias chain, JS `||`-style (a present-but-falsy value is skipped, and the
final alias is taken as-is). The balance-change normalizer's chains are
`block_time`/`blockTime`/`ts` (timestamp) and `tx_hash`/`txHash`
(signature); the transaction normalizer's are
`blockTime`/`blockTimeUnix`/`block_time` and `txHash`/`txhash`. Defaults
when every alias is absent: fee 0, slot/error/signature absent (the
transaction `slot` keeps a present 0 via `??`). -/
theorem c4_normalizer_alias (x : Src) :
    normBal x = Row.mk (aliasChain natTruthy [x.block_time, x.blockTime, x.ts])
      (aliasChain strTruthy [x.tx_hash, x.txHash])
      (aliasChain natTruthy [x.slot, none])
      ((aliasChain natTruthy [x.fee, some 0]).getD 0)
      (aliasChain strTruthy [x.err, none]) ∧
    normTx x = Row.mk (aliasChain natTruthy [x.blockTime, x.blockTimeUnix, x.block_time])
      (aliasChain strTruthy [x.txHash, x.txhash])
      x.slot
      ((aliasChain natTruthy [x.fee, x.feeLamports, some 0]).getD 0)
      (aliasChain strTruthy [x.err, x.error, none]) ∧
    (x.block_time = none → x.blockTime = none → x.ts = none → (normBal x).blockTime = none) ∧
    (x.blockTime = none → x.blockTimeUnix = none → x.block_time = none →
      (normTx x).blockTime = none) ∧
    (x.fee = none → x.feeLamports = none → (normBal x).fee = 0 ∧ (normTx x).fee = 0) ∧
    (x.slot = none → (normBal x).slot = none ∧ (normTx x).slot = none) ∧
    (x.err = none → x.error = none → (normBal x).err = none ∧ (normTx x).err = none) ∧
    (x.tx_hash = none → x.txHash = none → x.txhash = none →
      (normBal x).signature = none ∧ (normTx x).signature = none) := by
  refine ⟨rfl, rfl, ?_, ?_, ?_, ?_, ?_, ?_⟩
  · intro h1 h2 h3; simp [normBal, h1, h2, h3, jsOr]
  · intro h1 h2 h3; simp [normTx, h1, h2, h3, jsOr]
  · intro h1 h2; simp [normBal, normTx, h1, h2, jsOr]
  · intro h; simp [normBal, normTx, h, jsOr]
  · intro h1 h2; simp [normBal, normTx, h1, h2, jsOr]
  · intro h1 h2 h3; simp [normBal, normTx, h1, h2, h3, jsOr]

/-- Witness for the amended C4 defaults at the all-absent source object. -/
theorem c4_normalizer_alias_witness :
    (normBal {}).blockTime = none ∧ (normTx {}).fee = 0 ∧
    (normBal {}).signature = none ∧ (normTx {}).err = none := by
  refine ⟨?_, ?_, ?_, ?_⟩
  · exact (c4_normalizer_alias {}).2.2.1 rfl rfl rfl
  · exact ((c4_normalizer_alias {}).2.2.2.2.1 rfl rfl).2
  · exact ((c4_normalizer_alias {}).2.2.2.2.2.2.2 rfl rfl rfl).1
  · exact ((c4_normalizer_alias {}).2.2.2.2.2.2.1 rfl rfl).2

/-! ## C6: paginator termination behaviour -/

/-- Claim C6: every batch the Transaction Paginator yields is non-empty (an
empty page terminates the sequence without being yielded), and a yielded
batch whose last element lacks the transaction-hash field is the final
batch of the sequence. -/
theorem c6_paginator_termination (api : Option String → Except String (List Src))
    (fuel : Nat) (cursor : Option String) (pre post : List (List Src)) (b : List Src)
    (h : iterTransactions api fuel cursor = pre ++ b :: post) :
    b ≠ [] ∧ (lastHash b = none → post = []) := by
  induction fuel generalizing cursor pre with
  | zero =>
    rw [iterTransactions] at h
    exact absurd (List.append_eq_nil.mp h.symm).2 (List.cons_ne_nil _ _)
  | succ n ih =>
    rw [iterTransactions] at h
    cases hapi : api cursor with
    | error e =>
      rw [hapi] at h
      simp only [] at h
      exact absurd (List.append_eq_nil.mp h.symm).2 (List.cons_ne_nil _ _)
    | ok list =>
      rw [hapi] at h
      simp only [] at h
      by_cases hemp : list.isEmpty
      · rw [if_pos hemp] at h
        exact absurd (List.append_eq_nil.mp h.symm).2 (List.cons_ne_nil _ _)
      · rw [if_neg hemp] at h
        by_cases hbh : truthyS (lastHash list)
        · rw [if_pos hbh] at h
          cases pre with
          | nil =>
            rw [List.nil_append] at h
            injection h with h1 h2
            subst h1
            refine ⟨fun hb => hemp (by simp [hb]), fun hl => ?_⟩
            rw [hl] at hbh
            simp [truthyS, truthyO] at hbh
          | cons p pre' =>
            rw [List.cons_append] at h
            injection h with h1 h2
            exact ih (lastHash list) pre' h2
        · rw [if_neg hbh] at h
          cases pre with
          | nil =>
            rw [List.nil_append] at h
            injection h with h1 h2
            subst h1
            exact ⟨fun hb => hemp (by simp [hb]), fun _ => h2.symm⟩
          | cons p pre' =>
            rw [List.cons_append] at h
            injection h with h1 h2
            exact absurd (List.append_eq_nil.mp h2.symm).2 (List.cons_ne_nil _ _)

/-- Single-page oracle whose page's last element has no `txHash`. -/
def w6api : Option String → Except String (List Src) :=
  fun c => if c = none then .ok [{ txhash := some "x" }] else .ok []

/-- Witness: on `w6api` the paginator yields exactly one batch; that batch
is non-empty and, its last element lacking `txHash`, nothing follows it. -/
theorem c6_paginator_termination_witness :
    ([{ txhash := some "x" }] : List Src) ≠ [] ∧
      (lastHash [{ txhash := some "x" }] = none → ([] : List (List Src)) = []) :=
  c6_paginator_termination w6api 5 none [] [] [{ txhash := some "x" }] (by decide)

/-! ## C10: present-but-zero timestamps behave as absent -/

/-- Claim C10: a source object whose consulted timestamp aliases are all
falsy and whose last alias is a present `0` normalizes to a row with
timestamp `some 0`, and that row is treated as timestamp-less at every
public interface: the date filter never removes it under any bounds, the
chart grouping skips it, and CSV/table time rendering emit the empty
string. -/
theorem c10_zero_timestamp (t : Src) (se ee : Option Nat) (rows : List Row)
    (dateOf toISO : Nat → String) (stringify : String → String)
    (h1 : truthyN t.blockTime = false) (h2 : truthyN t.blockTimeUnix = false)
    (h3 : t.block_time = some 0) :
    (normTx t).blockTime = some 0 ∧
    dateFilter se ee (normTx t :: rows) = normTx t :: dateFilter se ee rows ∧
    groupByDate dateOf (normTx t :: rows) = groupByDate dateOf rows ∧
    (csvRowOf toISO stringify (normTx t)).time_iso = "" ∧
    renderTime toISO (normTx t) = "" := by
  have bt : (normTx t).blockTime = some 0 := by
    show jsOr natTruthy t.blockTime (jsOr natTruthy t.blockTimeUnix t.block_time) = some 0
    rw [jsOr_of_falsy _ _ _ h1, jsOr_of_falsy _ _ _ h2, h3]
  refine ⟨bt, ?_, ?_, ?_, ?_⟩
  · rw [dateFilter_eq_filter, dateFilter_eq_filter, List.filter_cons_of_pos]
    simp [dfPred, keepStart, keepEnd, bt, truthyN, truthyO, natTruthy]
  · show sortByDate (groupPairs dateOf (normTx t :: rows) []) = _
    rw [groupPairs]
    simp [bt, jsOr, natTruthy, groupByDate]
  · simp [csvRowOf, bt, truthyN, truthyO, natTruthy]
  · simp [renderTime, bt, truthyN, truthyO, natTruthy]

/-- Transaction-endpoint object with `block_time` present but zero. -/
def w10src : Src := { block_time := some 0, txHash := some "s" }

/-- Witness for C10 at `w10src` with concrete bounds and formatters. -/
theorem c10_zero_timestamp_witness :
    (normTx w10src).blockTime = some 0 ∧
    dateFilter (some 100) (some 200) [normTx w10src] =
      normTx w10src :: dateFilter (some 100) (some 200) [] ∧
    groupByDate (fun n => toString n) [normTx w10src] =
      groupByDate (fun n => toString n) [] ∧
    (csvRowOf (fun n => toString n) (fun s => s) (normTx w10src)).time_iso = "" ∧
    renderTime (fun n => toString n) (normTx w10src) = "" :=
  c10_zero_timestamp w10src (some 100) (some 200) [] (fun n => toString n)
    (fun n => toString n) (fun s => s) (by decide) (by decide) (by decide)

/-! ## Lemmas about progress milestones and monotone logs -/

theorem chainLeSnoc (l : List Nat) (x : Nat) (hl : List.Chain' (· ≤ ·) l)
    (hx : ∀ v ∈ l, v ≤ x) : List.Chain' (· ≤ ·) (l ++ [x]) := by
  rw [List.chain'_append]
  refine ⟨hl, List.chain'_singleton x, ?_⟩
  intro a ha b hb
  simp only [List.head?_cons, Option.mem_def, Option.some.injEq] at hb
  subst hb
  obtain ⟨hne, rfl⟩ := List.mem_getLast?_eq_getLast ha
  exact hx _ (List.getLast_mem hne)

theorem balProg_le (page : Nat) : balProg page ≤ 80 := min_le_left _ _

theorem balProg_mono {p q : Nat} (h : p ≤ q) : balProg p ≤ balProg q :=
  min_le_min (le_refl 80) (by omega)

theorem txProg_le (cfg : Config) (n : Nat) : txProg cfg n ≤ 95 := min_le_left _ _

theorem txProg_mono (cfg : Config) {n m : Nat} (h : n ≤ m) : txProg cfg n ≤ txProg cfg m := by
  unfold txProg
  refine min_le_min (le_refl 95) (Nat.add_le_add_left ?_ 60)
  unfold roundDiv
  exact Nat.div_le_div_right (by omega)

/-! ## Invariants of the balance-change loop -/

theorem balLoop_rows (api : Api) (cfg : Config) :
    ∀ (fuel page : Nat) (out : List Row) (sim : Sim) (out' : List Row) (sim' : Sim),
      sim.rows = out →
      balLoop api cfg fuel page out sim = .ok (out', sim') → sim'.rows = out' := by
  intro fuel
  induction fuel with
  | zero =>
    intro page out sim out' sim' hrows h
    rw [balLoop] at h
    simp only [Except.ok.injEq, Prod.mk.injEq] at h
    obtain ⟨h1, h2⟩ := h
    subst h1; subst h2
    exact hrows
  | succ n ih =>
    intro page out sim out' sim' hrows h
    rw [balLoop] at h
    simp only [] at h
    cases hb : api.balPage page with
    | error e => rw [hb] at h; simp only [] at h; exact Except.noConfusion h
    | ok list =>
      rw [hb] at h; simp only [] at h
      split at h
      · simp only [Except.ok.injEq, Prod.mk.injEq] at h
        obtain ⟨h1, h2⟩ := h
        subst h1; subst h2
        rfl
      · exact ih (page+1) (out ++ list.map normBal) _ out' sim' rfl h

theorem balLoop_mirror (api : Api) (cfg : Config) :
    ∀ (fuel page : Nat) (out : List Row) (sim : Sim) (out' : List Row) (sim' : Sim),
      balLoop api cfg fuel page out sim = .ok (out', sim') →
      balOutRowsLoop api cfg fuel page out = .ok out' := by
  intro fuel
  induction fuel with
  | zero =>
    intro page out sim out' sim' h
    rw [balLoop] at h
    simp only [Except.ok.injEq, Prod.mk.injEq] at h
    obtain ⟨h1, _⟩ := h; subst h1
    rw [balOutRowsLoop]
  | succ n ih =>
    intro page out sim out' sim' h
    rw [balLoop] at h
    simp only [] at h
    rw [balOutRowsLoop]
    cases hb : api.balPage page with
    | error e =>
      rw [hb] at h; simp only [] at h
      exact Except.noConfusion h
    | ok list =>
      rw [hb] at h; simp only [] at h
      simp only []
      split at h
      · next hcond =>
        rw [if_pos hcond]
        simp only [Except.ok.injEq, Prod.mk.injEq] at h
        obtain ⟨h1, _⟩ := h; subst h1; rfl
      · next hcond =>
        rw [if_neg hcond]
        exact ih (page+1) (out ++ list.map normBal) _ out' sim' h

theorem balLoop_pages (api : Api) (cfg : Config) :
    ∀ (fuel page : Nat) (out : List Row) (sim : Sim) (out' : List Row) (sim' : Sim),
      balLoop api cfg fuel page out sim = .ok (out', sim') →
      ∃ n, out' = out ++ balPagesRows api page n := by
  intro fuel
  induction fuel with
  | zero =>
    intro page out sim out' sim' h
    rw [balLoop] at h
    simp only [Except.ok.injEq, Prod.mk.injEq] at h
    obtain ⟨h1, _⟩ := h; subst h1
    exact ⟨0, by simp [balPagesRows]⟩
  | succ n ih =>
    intro page out sim out' sim' h
    rw [balLoop] at h
    simp only [] at h
    cases hb : api.balPage page with
    | error e =>
      rw [hb] at h; simp only [] at h
      exact Except.noConfusion h
    | ok list =>
      rw [hb] at h; simp only [] at h
      split at h
      · simp only [Except.ok.injEq, Prod.mk.injEq] at h
        obtain ⟨h1, _⟩ := h; subst h1
        refine ⟨1, ?_⟩
        simp [balPagesRows, okD, hb]
      · obtain ⟨m, hm⟩ := ih (page+1) (out ++ list.map normBal) _ out' sim' h
        refine ⟨m+1, ?_⟩
        rw [hm]
        simp [balPagesRows, okD, hb, List.append_assoc]

theorem balLoop_len (api : Api) (cfg : Config) (B : Nat)
    (hB : ∀ p l, api.balPage p = .ok l → l.length ≤ B) :
    ∀ (fuel page : Nat) (out : List Row) (sim : Sim) (out' : List Row) (sim' : Sim),
      balLoop api cfg fuel page out sim = .ok (out', sim') →
      out'.length ≤ max (out.length + B) (cfg.maxRows + B) := by
  intro fuel
  induction fuel with
  | zero =>
    intro page out sim out' sim' h
    rw [balLoop] at h
    simp only [Except.ok.injEq, Prod.mk.injEq] at h
    obtain ⟨h1, _⟩ := h; subst h1
    exact le_trans (Nat.le_add_right _ B) (le_max_left _ _)
  | succ n ih =>
    intro page out sim out' sim' h
    rw [balLoop] at h
    simp only [] at h
    cases hb : api.balPage page with
    | error e =>
      rw [hb] at h; simp only [] at h
      exact Except.noConfusion h
    | ok list =>
      rw [hb] at h; simp only [] at h
      have hlen : list.length ≤ B := hB page list hb
      split at h
      · simp only [Except.ok.injEq, Prod.mk.injEq] at h
        obtain ⟨h1, _⟩ := h; subst h1
        refine le_trans ?_ (le_max_left _ _)
        rw [List.length_append, List.length_map]
        omega
      · next hcond =>
        simp only [Bool.or_eq_true, decide_eq_true_eq, not_or] at hcond
        have hlt : (out ++ list.map normBal).length < cfg.maxRows := by
          rw [List.length_append, List.length_map]
          rw [List.length_append, List.length_map] at hcond
          omega
        refine le_trans (ih (page+1) (out ++ list.map normBal) _ out' sim' h) ?_
        refine le_trans (max_le ?_ (le_refl _)) (le_max_right _ _)
        omega

theorem balLoop_log (api : Api) (cfg : Config) :
    ∀ (fuel page : Nat) (out : List Row) (sim : Sim) (v : Nat),
      v ∈ (simOfLoop (balLoop api cfg fuel page out sim)).progressLog →
      v ∈ sim.progressLog ∨ v ≤ 80 := by
  intro fuel
  induction fuel with
  | zero =>
    intro page out sim v hv
    rw [balLoop] at hv
    exact Or.inl hv
  | succ n ih =>
    intro page out sim v hv
    rw [balLoop] at hv
    simp only [] at hv
    cases hb : api.balPage page with
    | error e =>
      rw [hb] at hv; simp only [simOfLoop] at hv
      exact Or.inl hv
    | ok list =>
      rw [hb] at hv; simp only [] at hv
      split at hv
      · simp only [simOfLoop, List.mem_append, List.mem_singleton] at hv
        rcases hv with hv | hv
        · exact Or.inl hv
        · exact Or.inr (hv ▸ balProg_le page)
      · rcases ih (page+1) (out ++ list.map normBal) _ v hv with hv2 | hv2
        · simp only [List.mem_append, List.mem_singleton] at hv2
          rcases hv2 with hv2 | hv2
          · exact Or.inl hv2
          · exact Or.inr (hv2 ▸ balProg_le page)
        · exact Or.inr hv2

theorem balLoop_chain (api : Api) (cfg : Config) :
    ∀ (fuel page : Nat) (out : List Row) (sim : Sim),
      List.Chain' (· ≤ ·) sim.progressLog →
      (∀ v ∈ sim.progressLog, v ≤ balProg page) →
      List.Chain' (· ≤ ·) (simOfLoop (balLoop api cfg fuel page out sim)).progressLog := by
  intro fuel
  induction fuel with
  | zero =>
    intro page out sim hc _
    rw [balLoop]
    exact hc
  | succ n ih =>
    intro page out sim hc hb
    rw [balLoop]
    simp only []
    cases hb' : api.balPage page with
    | error e => simp only [simOfLoop]; exact hc
    | ok list =>
      simp only []
      split
      · simp only [simOfLoop]
        exact chainLeSnoc _ _ hc hb
      · refine ih (page+1) (out ++ list.map normBal) _ (chainLeSnoc _ _ hc hb) ?_
        intro v hv
        simp only [List.mem_append, List.mem_singleton] at hv
        rcases hv with hv | hv
        · exact le_trans (hb v hv) (balProg_mono (by omega))
        · exact hv ▸ balProg_mono (by omega)

/-! ## Invariants of the transaction-crawl loop -/

theorem txLoop_rows (api : Api) (cfg : Config) :
    ∀ (fuel : Nat) (cursor : Option String) (out2 : List Row) (sim : Sim)
      (out' : List Row) (sim' : Sim),
      sim.rows = out2 →
      txLoop api cfg fuel cursor out2 sim = .ok (out', sim') → sim'.rows = out' := by
  intro fuel
  induction fuel with
  | zero =>
    intro cursor out2 sim out' sim' hrows h
    rw [txLoop] at h
    simp only [Except.ok.injEq, Prod.mk.injEq] at h
    obtain ⟨h1, h2⟩ := h; subst h1; subst h2
    exact hrows
  | succ n ih =>
    intro cursor out2 sim out' sim' hrows h
    rw [txLoop] at h
    simp only [] at h
    cases ht : api.txPage cursor with
    | error e =>
      rw [ht] at h; simp only [] at h
      exact Except.noConfusion h
    | ok list =>
      rw [ht] at h; simp only [] at h
      split at h
      · simp only [Except.ok.injEq, Prod.mk.injEq] at h
        obtain ⟨h1, h2⟩ := h; subst h1; subst h2
        exact hrows
      · split at h
        · simp only [Except.ok.injEq, Prod.mk.injEq] at h
          obtain ⟨h1, h2⟩ := h; subst h1; subst h2
          rfl
        · split at h
          · exact ih (lastHash list)
              (dateFilter cfg.startEpoch cfg.endEpoch (out2 ++ list.map normTx)) _
              out' sim' rfl h
          · simp only [Except.ok.injEq, Prod.mk.injEq] at h
            obtain ⟨h1, h2⟩ := h; subst h1; subst h2
            rfl

theorem txLoop_mirror (api : Api) (cfg : Config) :
    ∀ (fuel : Nat) (cursor : Option String) (out2 : List Row) (sim : Sim)
      (out' : List Row) (sim' : Sim),
      txLoop api cfg fuel cursor out2 sim = .ok (out', sim') →
      txOutRows api cfg fuel cursor out2 = .ok out' := by
  intro fuel
  induction fuel with
  | zero =>
    intro cursor out2 sim out' sim' h
    rw [txLoop] at h
    simp only [Except.ok.injEq, Prod.mk.injEq] at h
    obtain ⟨h1, _⟩ := h; subst h1
    rw [txOutRows]
  | succ n ih =>
    intro cursor out2 sim out' sim' h
    rw [txLoop] at h
    simp only [] at h
    rw [txOutRows]
    cases ht : api.txPage cursor with
    | error e =>
      rw [ht] at h; simp only [] at h
      exact Except.noConfusion h
    | ok list =>
      rw [ht] at h; simp only [] at h
      simp only []
      split at h
      · next hcond =>
        rw [if_pos hcond]
        simp only [Except.ok.injEq, Prod.mk.injEq] at h
        obtain ⟨h1, _⟩ := h; subst h1; rfl
      · next hcond =>
        rw [if_neg hcond]
        split at h
        · next hcap =>
          rw [if_pos hcap]
          simp only [Except.ok.injEq, Prod.mk.injEq] at h
          obtain ⟨h1, _⟩ := h; subst h1; rfl
        · next hcap =>
          rw [if_neg hcap]
          split at h
          · next hbh =>
            rw [if_pos hbh]
            exact ih (lastHash list)
              (dateFilter cfg.startEpoch cfg.endEpoch (out2 ++ list.map normTx)) _
              out' sim' h
          · next hbh =>
            rw [if_neg hbh]
            simp only [Except.ok.injEq, Prod.mk.injEq] at h
            obtain ⟨h1, _⟩ := h; subst h1; rfl

theorem txLoop_len (api : Api) (cfg : Config) (B : Nat)
    (hB : ∀ c l, api.txPage c = .ok l → l.length ≤ B) :
    ∀ (fuel : Nat) (cursor : Option String) (out2 : List Row) (sim : Sim)
      (out' : List Row) (sim' : Sim),
      txLoop api cfg fuel cursor out2 sim = .ok (out', sim') →
      out'.length ≤ max (out2.length + B) (cfg.maxRows + B) := by
  intro fuel
  induction fuel with
  | zero =>
    intro cursor out2 sim out' sim' h
    rw [txLoop] at h
    simp only [Except.ok.injEq, Prod.mk.injEq] at h
    obtain ⟨h1, _⟩ := h; subst h1
    exact le_trans (Nat.le_add_right _ B) (le_max_left _ _)
  | succ n ih =>
    intro cursor out2 sim out' sim' h
    rw [txLoop] at h
    simp only [] at h
    cases ht : api.txPage cursor with
    | error e =>
      rw [ht] at h; simp only [] at h
      exact Except.noConfusion h
    | ok list =>
      rw [ht] at h; simp only [] at h
      have hlen : list.length ≤ B := hB cursor list ht
      have hf4 : (dateFilter cfg.startEpoch cfg.endEpoch (out2 ++ list.map normTx)).length ≤
          out2.length + list.length := by
        refine le_trans (dateFilter_length_le _ _ _) ?_
        rw [List.length_append, List.length_map]
      split at h
      · simp only [Except.ok.injEq, Prod.mk.injEq] at h
        obtain ⟨h1, _⟩ := h; subst h1
        exact le_trans (Nat.le_add_right _ B) (le_max_left _ _)
      · split at h
        · simp only [Except.ok.injEq, Prod.mk.injEq] at h
          obtain ⟨h1, _⟩ := h; subst h1
          exact le_trans (by omega) (le_max_left (out2.length + B) (cfg.maxRows + B))
        · next hcap =>
          simp only [decide_eq_true_eq] at hcap
          split at h
          · refine le_trans (ih (lastHash list)
              (dateFilter cfg.startEpoch cfg.endEpoch (out2 ++ list.map normTx)) _
              out' sim' h) ?_
            refine le_trans (max_le ?_ (le_refl _)) (le_max_right _ _)
            omega
          · simp only [Except.ok.injEq, Prod.mk.injEq] at h
            obtain ⟨h1, _⟩ := h; subst h1
            exact le_trans (by omega) (le_max_left (out2.length + B) (cfg.maxRows + B))

theorem txLoop_log (api : Api) (cfg : Config) :
    ∀ (fuel : Nat) (cursor : Option String) (out2 : List Row) (sim : Sim) (v : Nat),
      v ∈ (simOfLoop (txLoop api cfg fuel cursor out2 sim)).progressLog →
      v ∈ sim.progressLog ∨ v ≤ 95 := by
  intro fuel
  induction fuel with
  | zero =>
    intro cursor out2 sim v hv
    rw [txLoop] at hv
    exact Or.inl hv
  | succ n ih =>
    intro cursor out2 sim v hv
    rw [txLoop] at hv
    simp only [] at hv
    cases ht : api.txPage cursor with
    | error e =>
      rw [ht] at hv; simp only [simOfLoop] at hv
      exact Or.inl hv
    | ok list =>
      rw [ht] at hv; simp only [] at hv
      split at hv
      · exact Or.inl hv
      · split at hv
        · simp only [simOfLoop, List.mem_append, List.mem_singleton] at hv
          rcases hv with hv | hv
          · exact Or.inl hv
          · exact Or.inr (hv ▸ txProg_le cfg _)
        · split at hv
          · rcases ih (lastHash list)
              (dateFilter cfg.startEpoch cfg.endEpoch (out2 ++ list.map normTx)) _ v hv with
              hv2 | hv2
            · simp only [List.mem_append, List.mem_singleton] at hv2
              rcases hv2 with hv2 | hv2
              · exact Or.inl hv2
              · exact Or.inr (hv2 ▸ txProg_le cfg _)
            · exact Or.inr hv2
          · simp only [simOfLoop, List.mem_append, List.mem_singleton] at hv
            rcases hv with hv | hv
            · exact Or.inl hv
            · exact Or.inr (hv ▸ txProg_le cfg _)

theorem txLoop_chain (api : Api) (cfg : Config) :
    ∀ (fuel : Nat) (cursor : Option String) (out2 : List Row) (sim : Sim),
      List.Chain' (· ≤ ·) sim.progressLog →
      (∀ v ∈ sim.progressLog, v ≤ txProg cfg out2.length) →
      dateFilter cfg.startEpoch cfg.endEpoch out2 = out2 →
      List.Chain' (· ≤ ·) (simOfLoop (txLoop api cfg fuel cursor out2 sim)).progressLog := by
  intro fuel
  induction fuel with
  | zero =>
    intro cursor out2 sim hc _ _
    rw [txLoop]
    exact hc
  | succ n ih =>
    intro cursor out2 sim hc hb hstable
    rw [txLoop]
    simp only []
    cases ht : api.txPage cursor with
    | error e => simp only [simOfLoop]; exact hc
    | ok list =>
      simp only []
      have hgrow : out2.length ≤
          (dateFilter cfg.startEpoch cfg.endEpoch (out2 ++ list.map normTx)).length := by
        rw [dateFilter_append_of_stable _ _ _ _ hstable, List.length_append]
        exact Nat.le_add_right _ _
      have hb4 : ∀ v ∈ sim.progressLog ++
          [txProg cfg (dateFilter cfg.startEpoch cfg.endEpoch (out2 ++ list.map normTx)).length],
          v ≤ txProg cfg
            (dateFilter cfg.startEpoch cfg.endEpoch (out2 ++ list.map normTx)).length := by
        intro v hv
        simp only [List.mem_append, List.mem_singleton] at hv
        rcases hv with hv | hv
        · exact le_trans (hb v hv) (txProg_mono cfg hgrow)
        · exact hv ▸ le_refl _
      have hc4 : List.Chain' (· ≤ ·) (sim.progressLog ++
          [txProg cfg (dateFilter cfg.startEpoch cfg.endEpoch (out2 ++ list.map normTx)).length]) :=
        chainLeSnoc _ _ hc (fun v hv => le_trans (hb v hv) (txProg_mono cfg hgrow))
      split
      · simp only [simOfLoop]; exact hc
      · split
        · simp only [simOfLoop]; exact hc4
        · split
          · exact ih (lastHash list)
              (dateFilter cfg.startEpoch cfg.endEpoch (out2 ++ list.map normTx)) _ hc4 hb4
              (dateFilter_idem _ _ _)
          · simp only [simOfLoop]; exact hc4

theorem txLoop_calls_grow (api : Api) (cfg : Config) :
    ∀ (fuel : Nat) (cursor : Option String) (out2 : List Row) (sim : Sim) (req : Req),
      req ∈ sim.calls →
      req ∈ (simOfLoop (txLoop api cfg fuel cursor out2 sim)).calls := by
  intro fuel
  induction fuel with
  | zero =>
    intro cursor out2 sim req hreq
    rw [txLoop]
    exact hreq
  | succ n ih =>
    intro cursor out2 sim req hreq
    rw [txLoop]
    simp only []
    cases ht : api.txPage cursor with
    | error e =>
      simp only [simOfLoop]
      exact List.mem_append_left _ hreq
    | ok list =>
      simp only []
      split
      · simp only [simOfLoop]
        exact List.mem_append_left _ hreq
      · split
        · simp only [simOfLoop]
          exact List.mem_append_left _ hreq
        · split
          · exact ih (lastHash list)
              (dateFilter cfg.startEpoch cfg.endEpoch (out2 ++ list.map normTx)) _ req
              (List.mem_append_left _ hreq)
          · simp only [simOfLoop]
            exact List.mem_append_left _ hreq

theorem txLoop_first_call (api : Api) (cfg : Config)
    (fuel : Nat) (cursor : Option String) (out2 : List Row) (sim : Sim) (hf : 1 ≤ fuel) :
    Req.txPage cursor ∈ (simOfLoop (txLoop api cfg fuel cursor out2 sim)).calls := by
  cases fuel with
  | zero => omega
  | succ n =>
    rw [txLoop]
    simp only []
    cases ht : api.txPage cursor with
    | error e =>
      simp only [simOfLoop]
      exact List.mem_append_right _ (List.mem_singleton.mpr rfl)
    | ok list =>
      simp only []
      split
      · simp only [simOfLoop]
        exact List.mem_append_right _ (List.mem_singleton.mpr rfl)
      · split
        · simp only [simOfLoop]
          exact List.mem_append_right _ (List.mem_singleton.mpr rfl)
        · split
          · exact txLoop_calls_grow api cfg n (lastHash list)
              (dateFilter cfg.startEpoch cfg.endEpoch (out2 ++ list.map normTx)) _ _
              (List.mem_append_right _ (List.mem_singleton.mpr rfl))
          · simp only [simOfLoop]
            exact List.mem_append_right _ (List.mem_singleton.mpr rfl)

theorem txLoop_cap_calls (api : Api) (cfg : Config)
    (fuel : Nat) (cursor : Option String) (out2 : List Row) (sim : Sim)
    (hstable : dateFilter cfg.startEpoch cfg.endEpoch out2 = out2)
    (hcap : cfg.maxRows ≤ out2.length) :
    (simOfLoop (txLoop api cfg fuel cursor out2 sim)).calls.length ≤ sim.calls.length + 1 := by
  cases fuel with
  | zero =>
    rw [txLoop]
    exact Nat.le_succ _
  | succ n =>
    rw [txLoop]
    simp only []
    cases ht : api.txPage cursor with
    | error e =>
      simp only [simOfLoop, List.length_append]
      exact le_refl _
    | ok list =>
      simp only []
      have hcap4 : cfg.maxRows ≤
          (dateFilter cfg.startEpoch cfg.endEpoch (out2 ++ list.map normTx)).length := by
        rw [dateFilter_append_of_stable _ _ _ _ hstable, List.length_append]
        omega
      split
      · simp only [simOfLoop, List.length_append]
        exact le_refl _
      · split
        · simp only [simOfLoop, List.length_append]
          exact le_refl _
        · next hcapfalse =>
          exact absurd (decide_eq_true_eq.mpr hcap4) (by simpa using hcapfalse)

/-! ## Dissection of a full `fetchAll` run -/

/-- State right after validation, `setLoading`/`setStatus`/`setProgress(5)`/
`setRows([])` and the account-detail request (App.jsx lines 43-46). -/
abbrev simEntry (sim0 : Sim) : Sim :=
  { sim0 with
    status := "Fetching account…",
    progressLog := sim0.progressLog ++ [5],
    rows := [],
    calls := sim0.calls ++ [Req.accountDetail] }

/-- State after `setAcct` (App.jsx line 47). -/
abbrev simDetail (sim0 : Sim) (d : Option AcctData) : Sim := { simEntry sim0 with acct := d }

theorem fetchAllE_ok_dissect (api : Api) (cfg : Config) (fuel : Nat) (sim0 sim : Sim)
    (h : fetchAllE api cfg fuel sim0 = .ok sim) :
    cfg.apiKey ≠ "" ∧ cfg.address ≠ "" ∧
    ∃ d sim6 out sim7,
      api.detail = .ok d ∧
      (((truthyN cfg.startEpoch || truthyN cfg.endEpoch) = true →
        ∃ out5 sim5,
          balLoop api cfg fuel 1 []
              { simDetail sim0 d with status := "Fetching balance changes…" } =
            .ok (out5, sim5) ∧
          sim6 = { sim5 with status := "Fetching transactions (pagination) …" }) ∧
      ((truthyN cfg.startEpoch || truthyN cfg.endEpoch) = false → sim6 = simDetail sim0 d)) ∧
      txLoop api cfg fuel none [] sim6 = .ok (out, sim7) ∧
      sim = { sim7 with status := "Done", progressLog := sim7.progressLog ++ [100] } := by
  rw [fetchAllE] at h
  split at h
  · exact Except.noConfusion h
  · next hkey =>
    split at h
    · exact Except.noConfusion h
    · next haddr =>
      simp only [] at h
      cases hd : api.detail with
      | error e =>
        rw [hd] at h; simp only [] at h
        exact Except.noConfusion h
      | ok d =>
        rw [hd] at h; simp only [] at h
        by_cases hdates : (truthyN cfg.startEpoch || truthyN cfg.endEpoch) = true
        · rw [if_pos hdates] at h
          split at h
          · exact Except.noConfusion h
          · next _ sim6 heq =>
            split at heq
            · exact Except.noConfusion heq
            · next out5 sim5 hbal =>
              simp only [Except.ok.injEq] at heq
              subst heq
              split at h
              · exact Except.noConfusion h
              · next out sim7 htx =>
                simp only [Except.ok.injEq] at h
                refine ⟨hkey, haddr, d,
                  { sim5 with status := "Fetching transactions (pagination) …" }, out, sim7,
                  rfl, ⟨fun _ => ⟨out5, sim5, hbal, rfl⟩,
                    fun hf => absurd hdates (by simp [hf])⟩,
                  htx, h.symm⟩
        · rw [if_neg hdates] at h
          simp only [] at h
          split at h
          · exact Except.noConfusion h
          · next out sim7 htx =>
            simp only [Except.ok.injEq] at h
            refine ⟨hkey, haddr, d, simDetail sim0 d, out, sim7, rfl,
              ⟨fun ht => absurd ht hdates, fun _ => rfl⟩, htx, h.symm⟩

theorem fetchAllE_error_dissect (api : Api) (cfg : Config) (fuel : Nat)
    (sim0 simE : Sim) (e : String)
    (h : fetchAllE api cfg fuel sim0 = .error (e, simE)) :
    simE = sim0 ∨ simE = simEntry sim0 ∨
    (∃ d, api.detail = .ok d ∧
      balLoop api cfg fuel 1 []
          { simDetail sim0 d with status := "Fetching balance changes…" } =
        .error (e, simE)) ∨
    (∃ d sim6, api.detail = .ok d ∧ txLoop api cfg fuel none [] sim6 = .error (e, simE) ∧
      (sim6 = simDetail sim0 d ∨
        ∃ out5 sim5, balLoop api cfg fuel 1 []
            { simDetail sim0 d with status := "Fetching balance changes…" } = .ok (out5, sim5) ∧
          sim6 = { sim5 with status := "Fetching transactions (pagination) …" })) := by
  rw [fetchAllE] at h
  split at h
  · simp only [Except.error.injEq, Prod.mk.injEq] at h
    exact Or.inl h.2.symm
  · split at h
    · simp only [Except.error.injEq, Prod.mk.injEq] at h
      exact Or.inl h.2.symm
    · simp only [] at h
      cases hd : api.detail with
      | error e2 =>
        rw [hd] at h; simp only [] at h
        simp only [Except.error.injEq, Prod.mk.injEq] at h
        exact Or.inr (Or.inl h.2.symm)
      | ok d =>
        rw [hd] at h; simp only [] at h
        by_cases hdates : (truthyN cfg.startEpoch || truthyN cfg.endEpoch) = true
        · rw [if_pos hdates] at h
          split at h
          · next _ es heq =>
            split at heq
            · next es2 hbal =>
              simp only [Except.error.injEq] at heq
              subst heq
              simp only [Except.error.injEq] at h
              subst h
              exact Or.inr (Or.inr (Or.inl ⟨d, rfl, hbal⟩))
            · exact Except.noConfusion heq
          · next _ sim6 heq =>
            split at heq
            · exact Except.noConfusion heq
            · next out5 sim5 hbal =>
              simp only [Except.ok.injEq] at heq
              subst heq
              split at h
              · next es2 htx =>
                simp only [Except.error.injEq] at h
                subst h
                exact Or.inr (Or.inr (Or.inr
                  ⟨d, _, rfl, htx, Or.inr ⟨out5, sim5, hbal, rfl⟩⟩))
              · exact Except.noConfusion h
        · rw [if_neg hdates] at h
          simp only [] at h
          split at h
          · next es2 htx =>
            simp only [Except.error.injEq] at h
            subst h
            exact Or.inr (Or.inr (Or.inr ⟨d, _, rfl, htx, Or.inl rfl⟩))
          · exact Except.noConfusion h

theorem isEmpty_false_of_ne_nil {l : List Src} (h : l ≠ []) : l.isEmpty = false := by
  cases l with
  | nil => exact absurd rfl h
  | cons a t => rfl

theorem fetchAllE_error_log (api : Api) (cfg : Config) (fuel : Nat)
    (prev simE : Sim) (e : String)
    (h : fetchAllE api cfg fuel (initSim prev) = .error (e, simE)) :
    ∀ v ∈ simE.progressLog, v ≤ 95 := by
  intro v hv
  rcases fetchAllE_error_dissect api cfg fuel _ simE e h with
    h1 | h2 | ⟨d, hd, hbal⟩ | ⟨d, sim6, hd, htx, hsim6⟩
  · rw [h1] at hv
    exact absurd hv (by simp [initSim])
  · rw [h2] at hv
    simp [simEntry, initSim] at hv
    omega
  · rcases balLoop_log api cfg fuel 1 [] _ v (by rw [hbal]; exact hv) with hv2 | hv2
    · simp [simDetail, simEntry, initSim] at hv2
      omega
    · omega
  · rcases txLoop_log api cfg fuel none [] sim6 v (by rw [htx]; exact hv) with hv2 | hv2
    · rcases hsim6 with h6 | ⟨out5, sim5, hbal, h6⟩
      · rw [h6] at hv2
        simp [simDetail, simEntry, initSim] at hv2
        omega
      · rw [h6] at hv2
        rcases balLoop_log api cfg fuel 1 [] _ v (by rw [hbal]; exact hv2) with hv3 | hv3
        · simp [simDetail, simEntry, initSim] at hv3
          omega
        · omega
    · exact hv2

/-! ## Shared concrete fixtures -/

/-- Balance-change item with timestamp 20 and hash "b1". -/
def cxBal : Src := { block_time := some 20, tx_hash := some "b1" }

/-- Transaction item with timestamp 50 and hash "h1". -/
def cxTx : Src := { blockTime := some 50, txHash := some "h1" }

/-- Oracle with one balance-change page and one transaction page. -/
def cx1api : Api :=
  { detail := .ok none
  , balPage := fun p => if p = 1 then .ok [cxBal] else .ok []
  , txPage := fun c => if c = none then .ok [cxTx] else .ok [] }

/-- Dates supplied, generous cap. -/
def cx1cfg : Config :=
  { apiKey := "k", address := "a", startEpoch := some 10, endEpoch := none, maxRows := 100 }

/-- Oracle whose first balance-change page alone exceeds the cap below. -/
def cx2api : Api :=
  { detail := .ok none, balPage := fun _ => .ok [cxBal, cxBal], txPage := fun _ => .ok [] }

/-- Dates supplied, cap 1. -/
def cx2cfg : Config :=
  { apiKey := "k", address := "a", startEpoch := some 10, endEpoch := none, maxRows := 1 }

/-! ## C1: the transaction phase replaces the balance-change rows -/

/-- Claim C1 counterexample: the balance-change phase appended the
normalized `cxBal` row, the transaction crawl yielded one batch, and the
final ResultSet is exactly the transaction rows — the balance-change row
does not appear at all, let alone before the transaction rows. -/
theorem c1_counterexample :
    cx1api.balPage 1 = .ok [cxBal] ∧
    (fetchAll cx1api cx1cfg 5 {}).rows = [normTx cxTx] ∧
    normBal cxBal ∉ (fetchAll cx1api cx1cfg 5 {}).rows := by
  refine ⟨rfl, by decide, by decide⟩

/-- Claim C1 as amended: the transaction phase starts a fresh accumulator
and each `setRows([...out2])` replaces the ResultSet, so on a successful
run whose first transaction page is non-empty the final rows are exactly
the transaction-phase rows (`txOutRows`, a function of the `txPage`
endpoint only — balance-change rows are discarded, and nothing is
deduplicated because nothing is merged); the balance-change rows survive
only when the transaction crawl yields no batch. -/
theorem c1_phase_replacement (api : Api) (cfg : Config) (fuel : Nat) (prev sim : Sim)
    (hf : 1 ≤ fuel) (h : fetchAllE api cfg fuel (initSim prev) = .ok sim) :
    (∀ l, api.txPage none = .ok l → l ≠ [] →
      txOutRows api cfg fuel none [] = .ok sim.rows) ∧
    (api.txPage none = .ok [] → balOutRows api cfg fuel = .ok sim.rows) := by
  cases fuel with
  | zero => omega
  | succ n =>
    obtain ⟨_, _, d, sim6, out, sim7, hd, ⟨hbalt, hbalf⟩, htx, hsim⟩ :=
      fetchAllE_ok_dissect api cfg (n+1) _ sim h
    have hsimrows : sim.rows = sim7.rows := by rw [hsim]
    constructor
    · intro l hl hlne
      have hmirror := txLoop_mirror api cfg (n+1) none [] sim6 out sim7 htx
      have hrows7 : sim7.rows = out := by
        rw [txLoop] at htx
        simp only [] at htx
        rw [hl] at htx
        simp only [] at htx
        rw [if_neg (by simp [isEmpty_false_of_ne_nil hlne])] at htx
        split at htx
        · simp only [Except.ok.injEq, Prod.mk.injEq] at htx
          obtain ⟨h1, h2⟩ := htx
          subst h1; subst h2
          rfl
        · split at htx
          · exact txLoop_rows api cfg n (lastHash l)
              (dateFilter cfg.startEpoch cfg.endEpoch ([] ++ List.map normTx l)) _
              out sim7 rfl htx
          · simp only [Except.ok.injEq, Prod.mk.injEq] at htx
            obtain ⟨h1, h2⟩ := htx
            subst h1; subst h2
            rfl
      rw [hsimrows, hrows7]
      exact hmirror
    · intro hl
      rw [txLoop] at htx
      simp only [] at htx
      rw [hl] at htx
      simp only [List.isEmpty_nil, if_true, Except.ok.injEq, Prod.mk.injEq] at htx
      obtain ⟨h1, h2⟩ := htx
      have hrows7 : sim7.rows = sim6.rows := by rw [← h2]
      rw [hsimrows, hrows7, balOutRows]
      by_cases hdates : (truthyN cfg.startEpoch || truthyN cfg.endEpoch) = true
      · rw [if_pos hdates]
        obtain ⟨out5, sim5, hbal, hsim6⟩ := hbalt hdates
        have h5 : sim5.rows = out5 :=
          balLoop_rows api cfg (n+1) 1 [] _ out5 sim5 rfl hbal
        have hm := balLoop_mirror api cfg (n+1) 1 [] _ out5 sim5 hbal
        rw [hsim6, ← h5] at *
        rw [hsim6]
        exact hm
      · rw [if_neg hdates]
        have hsim6 : sim6 = simDetail (initSim prev) d :=
          hbalf (by revert hdates; cases (truthyN cfg.startEpoch || truthyN cfg.endEpoch) <;> simp)
        rw [hsim6]

/-- Witness for the amended C1 on a run where both phases return rows. -/
theorem c1_phase_replacement_witness :
    txOutRows cx1api cx1cfg 5 none [] = .ok (fetchAll cx1api cx1cfg 5 {}).rows :=
  (c1_phase_replacement cx1api cx1cfg 5 {} (fetchAll cx1api cx1cfg 5 {}) (by decide) rfl).1
    [cxTx] rfl (by decide)

/-! ## C2: cap versus transaction-page requests -/

/-- Claim C2 counterexample: with cap 1, the balance-change phase
accumulates 2 rows (the final ResultSet of the run, the transaction crawl
being empty), which reaches the cap — yet a transaction-page request is
issued afterwards. -/
theorem c2_counterexample :
    cx2cfg.maxRows = 1 ∧
    (fetchAll cx2api cx2cfg 10 {}).rows.length = 2 ∧
    Req.txPage none ∈ (fetchAll cx2api cx2cfg 10 {}).calls := by decide

/-- Claim C2 as amended: within the transaction phase, entering the loop
with an accumulated (filtered) count already at or above the cap issues at
most the one request already mandated by entering the generator, and no
further one; however, the transaction phase always issues its first page
request on any successful run, regardless of how many rows the
balance-change phase accumulated. -/
theorem c2_cap_stops_requests :
    (∀ (api : Api) (cfg : Config) (fuel : Nat) (cursor : Option String)
        (out2 : List Row) (sim : Sim),
      dateFilter cfg.startEpoch cfg.endEpoch out2 = out2 →
      cfg.maxRows ≤ out2.length →
      (simOfLoop (txLoop api cfg fuel cursor out2 sim)).calls.length ≤ sim.calls.length + 1) ∧
    (∀ (api : Api) (cfg : Config) (fuel : Nat) (prev sim : Sim), 1 ≤ fuel →
      fetchAllE api cfg fuel (initSim prev) = .ok sim →
      Req.txPage none ∈ sim.calls) := by
  constructor
  · intro api cfg fuel cursor out2 sim hstable hcap
    exact txLoop_cap_calls api cfg fuel cursor out2 sim hstable hcap
  · intro api cfg fuel prev sim hf h
    obtain ⟨_, _, d, sim6, out, sim7, hd, _, htx, hsim⟩ :=
      fetchAllE_ok_dissect api cfg fuel _ sim h
    have hmem := txLoop_first_call api cfg fuel none [] sim6 hf
    rw [htx] at hmem
    simp only [simOfLoop] at hmem
    rw [hsim]
    exact hmem

/-- Witness for the amended C2: at-cap entry makes at most one request, and
a successful run issues the first transaction-page request. -/
theorem c2_cap_stops_requests_witness :
    (simOfLoop (txLoop cx2api cx2cfg 5 none [normBal cxBal, normBal cxBal] {})).calls.length ≤
      ({} : Sim).calls.length + 1 ∧
    Req.txPage none ∈ (fetchAll cx1api cx1cfg 5 {}).calls := by
  constructor
  · exact c2_cap_stops_requests.1 cx2api cx2cfg 5 none [normBal cxBal, normBal cxBal] {}
      (by decide) (by decide)
  · exact c2_cap_stops_requests.2 cx1api cx1cfg 5 {} (fetchAll cx1api cx1cfg 5 {}) (by decide) rfl

/-! ## C3: progress reporting -/

/-- Oracle driving the balance phase through 11 non-empty pages (progress
up to 68) before the transaction phase restarts at 60. -/
def cx3api : Api :=
  { detail := .ok none
  , balPage := fun p => if p ≤ 11 then .ok [cxBal] else .ok []
  , txPage := fun c => if c = none then .ok [cxTx] else .ok [] }

/-- Dates supplied, default cap 20000. -/
def cx3cfg : Config :=
  { apiKey := "k", address := "a", startEpoch := some 10, endEpoch := none, maxRows := 20000 }

/-- Claim C3 counterexample: on this successful run the reported progress
sequence decreases from 68 (balance-change page 12) to 60 (first
transaction batch), so progress is not monotone across phases. -/
theorem c3_counterexample :
    (fetchAll cx3api cx3cfg 30 {}).progressLog =
      [5, 24, 28, 32, 36, 40, 44, 48, 52, 56, 60, 64, 68, 60, 100] ∧
    ¬ List.Chain' (· ≤ ·) (fetchAll cx3api cx3cfg 30 {}).progressLog := by
  have hlog : (fetchAll cx3api cx3cfg 30 {}).progressLog =
      [5, 24, 28, 32, 36, 40, 44, 48, 52, 56, 60, 64, 68, 60, 100] := by decide
  refine ⟨hlog, ?_⟩
  rw [hlog]
  intro hch
  simp [List.chain'_cons] at hch

/-- Claim C3 as amended: 100 is reported exactly on the successful runs
(no failed run ever reports 100, every successful run ends at 100), and the
reported progress sequence is non-decreasing *within* each phase — the
balance-change loop and the transaction loop each preserve monotonicity of
the log — though it may drop at the phase boundary (balance progress can
reach 80 while the transaction phase restarts from 60). -/
theorem c3_progress_phases :
    (∀ (api : Api) (cfg : Config) (fuel : Nat) (prev : Sim),
      100 ∈ (fetchAll api cfg fuel prev).progressLog ↔
        ∃ sim, fetchAllE api cfg fuel (initSim prev) = .ok sim) ∧
    (∀ (api : Api) (cfg : Config) (fuel page : Nat) (out : List Row) (sim : Sim),
      List.Chain' (· ≤ ·) sim.progressLog →
      (∀ v ∈ sim.progressLog, v ≤ balProg page) →
      List.Chain' (· ≤ ·) (simOfLoop (balLoop api cfg fuel page out sim)).progressLog) ∧
    (∀ (api : Api) (cfg : Config) (fuel : Nat) (cursor : Option String)
        (out2 : List Row) (sim : Sim),
      List.Chain' (· ≤ ·) sim.progressLog →
      (∀ v ∈ sim.progressLog, v ≤ txProg cfg out2.length) →
      dateFilter cfg.startEpoch cfg.endEpoch out2 = out2 →
      List.Chain' (· ≤ ·) (simOfLoop (txLoop api cfg fuel cursor out2 sim)).progressLog) := by
  refine ⟨?_, balLoop_chain, txLoop_chain⟩
  intro api cfg fuel prev
  constructor
  · intro h100
    cases hE : fetchAllE api cfg fuel (initSim prev) with
    | ok sim => exact ⟨sim, rfl⟩
    | error es =>
      exfalso
      obtain ⟨e, simE⟩ := es
      rw [fetchAll, hE] at h100
      have hb := fetchAllE_error_log api cfg fuel prev simE e hE 100 h100
      omega
  · rintro ⟨sim, hE⟩
    rw [fetchAll, hE]
    obtain ⟨_, _, d, sim6, out, sim7, hd, _, htx, hsim⟩ :=
      fetchAllE_ok_dissect api cfg fuel _ sim hE
    rw [hsim]
    simp

/-- Witness for the amended C3 at concrete states and a successful run. -/
theorem c3_progress_phases_witness :
    (100 ∈ (fetchAll cx1api cx1cfg 5 {}).progressLog ↔
      ∃ sim, fetchAllE cx1api cx1cfg 5 (initSim {}) = .ok sim) ∧
    List.Chain' (· ≤ ·) (simOfLoop (balLoop cx1api cx1cfg 3 1 [] {})).progressLog ∧
    List.Chain' (· ≤ ·) (simOfLoop (txLoop cx1api cx1cfg 3 none [] {})).progressLog := by
  refine ⟨c3_progress_phases.1 cx1api cx1cfg 5 {}, ?_, ?_⟩
  · exact c3_progress_phases.2.1 cx1api cx1cfg 3 1 [] {} (by simp) (by simp)
  · exact c3_progress_phases.2.2 cx1api cx1cfg 3 none [] {} (by simp) (by simp) (by decide)

/-! ## C7: lenient cap -/

/-- Claim C7: starting from an empty accumulator, each phase's loop stops
requesting once the cap is reached without truncating the triggering batch:
the balance-change result is a concatenation of whole normalized pages, the
transaction loop appends each batch whole after date filtering, and either
final size is at most the cap plus one batch-size bound. -/
theorem c7_lenient_cap :
    (∀ (api : Api) (cfg : Config) (fuel : Nat) (sim : Sim) (B : Nat),
      (∀ p l, api.balPage p = .ok l → l.length ≤ B) →
      ∀ out' sim', balLoop api cfg fuel 1 [] sim = .ok (out', sim') →
        out'.length ≤ cfg.maxRows + B ∧ ∃ n, out' = balPagesRows api 1 n) ∧
    (∀ (api : Api) (cfg : Config) (fuel : Nat) (sim : Sim) (B : Nat),
      (∀ c l, api.txPage c = .ok l → l.length ≤ B) →
      ∀ out' sim', txLoop api cfg fuel none [] sim = .ok (out', sim') →
        out'.length ≤ cfg.maxRows + B) ∧
    (∀ (se ee : Option Nat) (out2 batch : List Row),
      dateFilter se ee out2 = out2 →
      dateFilter se ee (out2 ++ batch) = out2 ++ dateFilter se ee batch) := by
  refine ⟨?_, ?_, dateFilter_append_of_stable⟩
  · intro api cfg fuel sim B hB out' sim' h
    constructor
    · have h2 := balLoop_len api cfg B hB fuel 1 [] sim out' sim' h
      rw [List.length_nil, Nat.zero_add, max_eq_right (by omega : B ≤ cfg.maxRows + B)] at h2
      exact h2
    · obtain ⟨n, hn⟩ := balLoop_pages api cfg fuel 1 [] sim out' sim' h
      rw [List.nil_append] at hn
      exact ⟨n, hn⟩
  · intro api cfg fuel sim B hB out' sim' h
    have h2 := txLoop_len api cfg B hB fuel none [] sim out' sim' h
    rw [List.length_nil, Nat.zero_add, max_eq_right (by omega : B ≤ cfg.maxRows + B)] at h2
    exact h2

/-- Oracle returning the same single-item balance page forever. -/
def w7api : Api :=
  { detail := .ok none, balPage := fun _ => .ok [cxBal], txPage := fun _ => .ok [] }

/-- State of the balance loop on `w7api` with cap 1 after its single
iteration. -/
def w7sim : Sim :=
  { rows := [normBal cxBal], status := "Idle", acct := none,
    progressLog := [24], calls := [Req.balancePage 1] }

/-- Witness for C7 at a run whose first batch reaches the cap. -/
theorem c7_lenient_cap_witness :
    ([normBal cxBal] : List Row).length ≤ cx2cfg.maxRows + 1 ∧
    (∃ n, ([normBal cxBal] : List Row) = balPagesRows w7api 1 n) ∧
    dateFilter (some 10) none ([normBal cxBal] ++ [normTx cxTx]) =
      [normBal cxBal] ++ dateFilter (some 10) none [normTx cxTx] := by
  refine ⟨?_, ?_, ?_⟩
  · exact (c7_lenient_cap.1 w7api cx2cfg 4 {} 1
      (fun p l hl => by injection hl with h; rw [← h]; decide)
      [normBal cxBal] w7sim rfl).1
  · exact (c7_lenient_cap.1 w7api cx2cfg 4 {} 1
      (fun p l hl => by injection hl with h; rw [← h]; decide)
      [normBal cxBal] w7sim rfl).2
  · exact c7_lenient_cap.2.2 (some 10) none [normBal cxBal] [normTx cxTx] (by decide)

/-! ## C8: validation and failure handling -/

/-- Claim C8: an empty API key or address fails with the validation message
before any network request, leaving the previous rows untouched (the new
invocation's request trace is empty and its state is the previous state);
and on any thrown failure the catch block only replaces `status` with the
error message — the rows and trace at the throw point are returned
unchanged. -/
theorem c8_error_handling :
    (∀ (api : Api) (cfg : Config) (fuel : Nat) (prev : Sim), cfg.apiKey = "" →
      fetchAll api cfg fuel prev =
        { initSim prev with status := "Enter your Solscan Pro API key." }) ∧
    (∀ (api : Api) (cfg : Config) (fuel : Nat) (prev : Sim),
      cfg.apiKey ≠ "" → cfg.address = "" →
      fetchAll api cfg fuel prev = { initSim prev with status := "Enter a Solana address." }) ∧
    (∀ (prev : Sim), (initSim prev).calls = [] ∧ (initSim prev).rows = prev.rows) ∧
    (∀ (api : Api) (cfg : Config) (fuel : Nat) (prev : Sim) (e : String) (simE : Sim),
      fetchAllE api cfg fuel (initSim prev) = .error (e, simE) →
      fetchAll api cfg fuel prev = { simE with status := e }) := by
  refine ⟨?_, ?_, ?_, ?_⟩
  · intro api cfg fuel prev hk
    rw [fetchAll, fetchAllE, if_pos hk]
  · intro api cfg fuel prev hk ha
    rw [fetchAll, fetchAllE, if_neg hk, if_pos ha]
  · intro prev
    exact ⟨rfl, rfl⟩
  · intro api cfg fuel prev e simE h
    rw [fetchAll, h]

/-- Oracle whose account-detail call throws. -/
def w8api : Api :=
  { detail := .error "Account detail error (500)", balPage := fun _ => .ok [],
    txPage := fun _ => .ok [] }

/-- Valid key and address, no dates. -/
def w8cfg : Config :=
  { apiKey := "k", address := "a", startEpoch := none, endEpoch := none, maxRows := 5 }

/-- Missing API key. -/
def w8cfgEmpty : Config :=
  { apiKey := "", address := "a", startEpoch := none, endEpoch := none, maxRows := 5 }

/-- Witness for C8: the validation failure and an HTTP failure, each with
its concrete resulting state. -/
theorem c8_error_handling_witness :
    fetchAll w8api w8cfgEmpty 3 {} =
      { initSim {} with status := "Enter your Solscan Pro API key." } ∧
    fetchAll w8api w8cfg 3 {} =
      { simEntry (initSim {}) with status := "Account detail error (500)" } := by
  constructor
  · exact c8_error_handling.1 w8api w8cfgEmpty 3 {} rfl
  · exact c8_error_handling.2.2.2 w8api w8cfg 3 {} "Account detail error (500)"
      (simEntry (initSim {})) rfl
